import Mathlib

/-!
Shallow embedding of `descriptor-wallet`'s `hd/src/schemata.rs` (derivation
schemata based on BIP-43-related standards), together with the string and
child-number primitives the file uses.

Strings are modelled through their character lists (`String.data`).
`str::to_lowercase` is modelled as ASCII lowercasing (all inputs appearing in
the specification are ASCII). Fallible Rust functions returning `Result` are
modelled with `Except`/`Option`.
-/

deriving instance DecidableEq for Except

namespace DescriptorWallet

/-- Model of Rust's ASCII lowercasing of a single character: uppercase
letters `A`..`Z` are shifted to `a`..`z`, anything else is unchanged. -/
def asciiLowerChar (c : Char) : Char :=
  if 65 ≤ c.toNat ∧ c.toNat ≤ 90 then Char.ofNat (c.toNat + 32) else c

/-- Model of `str::to_lowercase` on a character list. -/
def lowerL (cs : List Char) : List Char := cs.map asciiLowerChar

/-- Model of `str::to_lowercase` at the `String` level. -/
def toLower (s : String) : String := ⟨lowerL s.data⟩

/-- Model of `str::strip_prefix`: `some` of the residual when the first
argument is a prefix of the second, `none` otherwise. -/
def stripPref : List Char → List Char → Option (List Char)
  | [], s => some s
  | _ :: _, [] => none
  | p :: ps, c :: cs => if p = c then stripPref ps cs else none

/-- Model of `str::starts_with`. -/
def isPref (p s : List Char) : Bool := (stripPref p s).isSome

/-- The apostrophe character, one of the two hardened-index suffixes of
BIP-32 child-number notation. -/
def apostropheChar : Char := Char.ofNat 39

/-- Decimal digit value of a character, if it is a digit. -/
def digitVal (c : Char) : Option Nat :=
  if 48 ≤ c.toNat ∧ c.toNat ≤ 57 then some (c.toNat - 48) else none

/-- Accumulating core of `u32::from_str`: consumes decimal digits, failing on
a non-digit or on overflow past `2^32`. -/
def parseU32Core : List Char → Nat → Option Nat
  | [], acc => some acc
  | c :: cs, acc =>
    match digitVal c with
    | some d =>
      let v := acc * 10 + d
      if v < 4294967296 then parseU32Core cs v else none
    | none => none

/-- Model of Rust's `u32::from_str`: an optional leading `+` sign followed by
a nonempty run of decimal digits whose value fits in 32 bits. -/
def parseU32L (cs : List Char) : Option Nat :=
  match cs with
  | [] => none
  | c :: rest =>
    if c = ('+') then
      match rest with
      | [] => none
      | _ :: _ => parseU32Core rest 0
    else parseU32Core cs 0

/-- The `bitcoin` crate's `ChildNumber`: a 32-bit derivation-path segment
tagged normal (unhardened) or hardened. -/
inductive ChildNumber
  | normal (index : Nat)
  | hardened (index : Nat)
deriving DecidableEq

/-- Model of the `bitcoin` crate's `ChildNumber::from_str`: a trailing `h` or
apostrophe marks a hardened index whose digits precede the suffix; otherwise
the whole string is parsed as a normal index. Either way the value must be
below `2^31`. -/
def childNumberFromStrL (cs : List Char) : Option ChildNumber :=
  let isHardened : Bool :=
    match cs.getLast? with
    | some l => l = apostropheChar || l = ('h')
    | none => false
  if isHardened then
    match parseU32L cs.dropLast with
    | some i => if i < 2147483648 then some (ChildNumber.hardened i) else none
    | none => none
  else
    match parseU32L cs with
    | some i => if i < 2147483648 then some (ChildNumber.normal i) else none
    | none => none

/-- String-level wrapper around `childNumberFromStrL`. -/
def childNumberFromStr (s : String) : Option ChildNumber :=
  childNumberFromStrL s.data

/-- The `hd` crate's `HardenedIndex` newtype (a hardened derivation index). -/
structure HardenedIndex where
  idx : Nat
deriving DecidableEq

/-- The `hd` crate's `UnhardenedIndex` newtype (a normal derivation index). -/
structure UnhardenedIndex where
  idx : Nat
deriving DecidableEq

/-- Modelled from the spec: conversion from a generic child number to
`HardenedIndex` (the `hd` crate's `TryFrom<ChildNumber>` impl, not under
`src/`) must assert the hardened flag and fail on a normal segment. -/
def HardenedIndex.try_from : ChildNumber → Option HardenedIndex
  | .hardened i => some ⟨i⟩
  | .normal _ => none

/-- Conversion of a `HardenedIndex` into a path segment (`Into<ChildNumber>`):
always a hardened segment carrying the same value. -/
def HardenedIndex.child_number (h : HardenedIndex) : ChildNumber :=
  ChildNumber.hardened h.idx

/-- Conversion of an `UnhardenedIndex` into a path segment: always a normal
segment carrying the same value. -/
def UnhardenedIndex.child_number (u : UnhardenedIndex) : ChildNumber :=
  ChildNumber.normal u.idx

/-- Modelled from the spec: `HardenedIndex::from_str` (the `hd` crate's
indexes module, not under `src/`). The spec requires both plain decimal
payloads (`bip48//1` parses to `Bip48Nested`) and suffixed ones (`bip43/7h`
names purpose `7`), so the parser accepts any child-number string, in either
normal or hardened notation, and takes its numeric value. -/
def hardenedIndexFromStrL (cs : List Char) : Option HardenedIndex :=
  match childNumberFromStrL cs with
  | some (.normal i) => some ⟨i⟩
  | some (.hardened i) => some ⟨i⟩
  | none => none

/-- String-level wrapper around `hardenedIndexFromStrL`. -/
def hardenedIndexFromStr (s : String) : Option HardenedIndex :=
  hardenedIndexFromStrL s.data

/-- Modelled from the spec: display form of a `HardenedIndex`, the decimal
value followed by the hardened marker `h` (as in `m/44h` and `bip43/7h`). -/
def HardenedIndex.display (h : HardenedIndex) : String :=
  toString h.idx ++ "h"

/-- `ParseError` from `hd/src/schemata.rs`: errors in parsing derivation
scheme string representations. -/
inductive ParseError
  | invalidBlockchainName (s : String)
  | unhardenedBlockchainIndex (i : Nat)
  | invalidIdentityIndex (s : String)
  | invalidPurposeIndex (s : String)
  | unimplementedBip (n : Nat)
  | unrecognizedBipScheme
  | invalidBip43Scheme
  | invalidBip48Scheme
  | invalidDerivationPath (s : String)
deriving DecidableEq

/-- `DerivationBlockchain` from `hd/src/schemata.rs`: the LNPBP-43
blockchain-selector path segment. -/
inductive DerivationBlockchain
  | bitcoin
  | testnet
  | custom (index : HardenedIndex)
deriving DecidableEq

/-- `DerivationBlockchain::child_number`: Bitcoin is hardened `0`, Testnet is
hardened `1`, a custom chain is its own hardened index. -/
def DerivationBlockchain.child_number : DerivationBlockchain → ChildNumber
  | .bitcoin => ChildNumber.hardened 0
  | .testnet => ChildNumber.hardened 1
  | .custom index => index.child_number

/-- The `Display` form of `DerivationBlockchain` (from its display
attributes): `bitcoin`, `testnet`, or the inner index's display. -/
def DerivationBlockchain.display : DerivationBlockchain → String
  | .bitcoin => "bitcoin"
  | .testnet => "testnet"
  | .custom index => index.display

/-- `DerivationBlockchain::from_str`: the child-number parse of the original
string is computed first, then the lowercased string is matched against
`bitcoin` and `testnet` before the parse result is inspected. The
`InvalidBlockchainName` error carries the lowercased string (`wrong` in the
source is bound by the match on `s.to_lowercase().as_str()`). -/
def DerivationBlockchain.from_str (s : String) : Except ParseError DerivationBlockchain :=
  let parsed := childNumberFromStr s
  let low := toLower s
  if low = "bitcoin" then Except.ok DerivationBlockchain.bitcoin
  else if low = "testnet" then Except.ok DerivationBlockchain.testnet
  else
    match parsed with
    | some (.hardened i) => Except.ok (DerivationBlockchain.custom ⟨i⟩)
    | some (.normal i) => Except.error (ParseError.unhardenedBlockchainIndex i)
    | none => Except.error (ParseError.invalidBlockchainName low)

/-- `Bip43` from `hd/src/schemata.rs`: the BIP-43-family derivation scheme
enumeration, with a generic variant carrying a custom purpose. -/
inductive Bip43
  | bip44
  | bip84
  | bip49
  | bip86
  | bip45
  | bip48Nested
  | bip48Native
  | bip87
  | bip43 (purpose : HardenedIndex)
deriving DecidableEq

/-- The canonical `Display` form of `Bip43` (from its display attributes). -/
def Bip43.display : Bip43 → String
  | .bip44 => "bip44"
  | .bip84 => "bip84"
  | .bip49 => "bip49"
  | .bip86 => "bip86"
  | .bip45 => "bip45"
  | .bip48Nested => "bip48-nested"
  | .bip48Native => "bip48-native"
  | .bip87 => "bip87"
  | .bip43 purpose => "bip43/" ++ purpose.display

/-- The alternate `Display` form of `Bip43` (`alt = "m/44h"` etc.). -/
def Bip43.displayAlt : Bip43 → String
  | .bip44 => "m/44h"
  | .bip84 => "m/84h"
  | .bip49 => "m/49h"
  | .bip86 => "m/86h"
  | .bip45 => "m/45h"
  | .bip48Nested => "m/48h//1h"
  | .bip48Native => "m/48h//2h"
  | .bip87 => "m/87h"
  | .bip43 purpose => "bip43/" ++ purpose.display

/-- `Bip43::from_str`: the input is lowercased, then `strip_prefix("bip")` is
tried before `strip_prefix("m/")`; the residual is matched in source order.
In the `48//` arm the source strips `"bip48//"` from the whole lowercased
string `s`, not from the residual. The `None`-pattern arm guarded by
`s.starts_with("bip43")` is translated as written; `sl` here is the
lowercased string. -/
def Bip43.from_str (s : String) : Except ParseError Bip43 :=
  let sl := toLower s
  let bip :=
    match stripPref ("bip").data sl.data with
    | some r => some r
    | none => stripPref ("m/").data sl.data
  match bip with
  | some r =>
    if r = ("44").data then Except.ok Bip43.bip44
    else if r = ("84").data then Except.ok Bip43.bip84
    else if r = ("49").data then Except.ok Bip43.bip49
    else if r = ("86").data then Except.ok Bip43.bip86
    else if r = ("45").data then Except.ok Bip43.bip45
    else if isPref ("48//").data r then
      match (stripPref ("bip48//").data sl.data).bind hardenedIndexFromStrL with
      | some script_type =>
        if script_type.idx = 1 then Except.ok Bip43.bip48Nested
        else if script_type.idx = 2 then Except.ok Bip43.bip48Native
        else Except.error ParseError.invalidBip48Scheme
      | none => Except.error ParseError.invalidBip48Scheme
    else if r = ("48-nested").data then Except.ok Bip43.bip48Nested
    else if r = ("48-native").data then Except.ok Bip43.bip48Native
    else if r = ("87").data then Except.ok Bip43.bip87
    else Except.error ParseError.unrecognizedBipScheme
  | none =>
    if isPref ("bip43").data sl.data then
      match stripPref ("bip43/").data sl.data with
      | some purpose =>
        match hardenedIndexFromStrL purpose with
        | some p => Except.ok (Bip43.bip43 p)
        | none => Except.error (ParseError.invalidPurposeIndex ⟨purpose⟩)
      | none => Except.error ParseError.invalidBip43Scheme
    else Except.error ParseError.unrecognizedBipScheme

/-- `Bip43::purpose` (`DerivationStandard` impl): total lookup of the fixed
purpose value, wrapped in `Some` as in the source. -/
def Bip43.purpose : Bip43 → Option HardenedIndex
  | .bip44 => some ⟨44⟩
  | .bip84 => some ⟨84⟩
  | .bip49 => some ⟨49⟩
  | .bip86 => some ⟨86⟩
  | .bip45 => some ⟨45⟩
  | .bip48Nested => some ⟨48⟩
  | .bip48Native => some ⟨48⟩
  | .bip87 => some ⟨87⟩
  | .bip43 purpose => some purpose

/-- `Bip43::to_origin_derivation`: the purpose segment (when present)
followed by the blockchain segment. -/
def Bip43.to_origin_derivation (b : Bip43) (blockchain : DerivationBlockchain) :
    List ChildNumber :=
  let path : List ChildNumber :=
    match b.purpose with
    | some purpose => [purpose.child_number]
    | none => []
  path ++ [blockchain.child_number]

/-- `Bip43::to_account_derivation`. The source builds `path` out of the
account index and the BIP-48 script-type discriminator, but
`DerivationPath::extend` borrows `&self` and returns a new path, and the
statement `derivation.extend(&path);` discards that result, so the function
returns the unmodified origin path. The discarded extension is kept as an
unused binding to mirror the source. -/
def Bip43.to_account_derivation (b : Bip43) (account_index : ChildNumber)
    (blockchain : DerivationBlockchain) : List ChildNumber :=
  let path : List ChildNumber :=
    [account_index] ++
      (if b = Bip43.bip48Native then [(⟨2⟩ : HardenedIndex).child_number]
       else if b = Bip43.bip48Nested then [(⟨1⟩ : HardenedIndex).child_number]
       else [])
  let derivation := b.to_origin_derivation blockchain
  let _ := derivation ++ path
  derivation

/-- `Bip43::to_key_derivation`: the account path extended with the address
index, then with the case segment when one is supplied (here `extend`'s
result is reassigned, so the extensions do take effect). -/
def Bip43.to_key_derivation (b : Bip43) (account_index : ChildNumber)
    (blockchain : DerivationBlockchain) (index : UnhardenedIndex)
    (caseIndex : Option UnhardenedIndex) : List ChildNumber :=
  let derivation := b.to_account_derivation account_index blockchain
  let derivation := derivation ++ [index.child_number]
  (caseIndex.map (fun c => derivation ++ [c.child_number])).getD derivation

/-- `Bip43::with` (named `withPath` because `with` is reserved in Lean).
`iter.next()` consumes the first element; the subsequent `iter.nth(3)` skips
three more elements and yields the one at index 4, modelled as
`(drop 1, then drop 3).head?`. The match arms follow source order. -/
def Bip43.withPath (derivation : List ChildNumber) : Option Bip43 :=
  match derivation.head?.bind HardenedIndex.try_from with
  | none => none
  | some first =>
    let fourth := ((derivation.drop 1).drop 3).head?.map HardenedIndex.try_from
    if first.idx = 44 then some Bip43.bip44
    else if first.idx = 84 then some Bip43.bip84
    else if first.idx = 49 then some Bip43.bip49
    else if first.idx = 86 then some Bip43.bip86
    else if first.idx = 45 then some Bip43.bip45
    else if first.idx = 87 then some Bip43.bip87
    else if first.idx = 48 then
      match fourth with
      | some (some script_type) =>
        if script_type.idx = 1 then some Bip43.bip48Nested
        else if script_type.idx = 2 then some Bip43.bip48Native
        else none
      | _ => none
    else some (Bip43.bip43 first)

/-- `DescriptorType`: the self-contained fallback enumeration of output
script classifications from `hd/src/schemata.rs`. -/
inductive DescriptorType
  | bare
  | sh
  | pkh
  | wpkh
  | wsh
  | shWsh
  | shWpkh
  | shSortedMulti
  | wshSortedMulti
  | shWshSortedMulti
  | tr
deriving DecidableEq

/-- `Bip43::check_descriptor_type`: the fixed compatibility table. -/
def Bip43.check_descriptor_type (b : Bip43) (descriptor_type : DescriptorType) : Bool :=
  match b, descriptor_type with
  | .bip44, .pkh => true
  | .bip84, .wpkh => true
  | .bip49, .shWpkh => true
  | .bip86, .tr => true
  | .bip45, .shSortedMulti => true
  | .bip87, .shSortedMulti => true
  | .bip87, .shWshSortedMulti => true
  | .bip87, .wshSortedMulti => true
  | .bip48Nested, .shWshSortedMulti => true
  | .bip48Native, .wshSortedMulti => true
  | _, _ => false

theorem stripPref_isSome_of_append {p q s : List Char}
    (h : (stripPref (p ++ q) s).isSome = true) : (stripPref p s).isSome = true := by
  induction p generalizing s with
  | nil => rfl
  | cons a as ih =>
    cases s with
    | nil => simp [stripPref] at h
    | cons c cs =>
      by_cases hac : a = c
      · simp only [List.cons_append, stripPref, if_pos hac] at h ⊢
        exact ih h
      · simp only [List.cons_append, stripPref, if_neg hac, Option.isSome_none] at h
        exact Bool.noConfusion h

set_option maxHeartbeats 1000000 in
theorem from_str_never_bip43_errors (s : String) :
    (∃ b, Bip43.from_str s = Except.ok b) ∨
    Bip43.from_str s = Except.error ParseError.unrecognizedBipScheme ∨
    Bip43.from_str s = Except.error ParseError.invalidBip48Scheme := by
  cases h1 : stripPref ("bip").data (toLower s).data with
  | some r =>
    simp only [Bip43.from_str, h1]
    repeat' split
    all_goals first
      | exact Or.inl ⟨_, rfl⟩
      | exact Or.inr (Or.inl rfl)
      | exact Or.inr (Or.inr rfl)
  | none =>
    cases h2 : stripPref ("m/").data (toLower s).data with
    | some r =>
      simp only [Bip43.from_str, h1, h2]
      repeat' split
      all_goals first
        | exact Or.inl ⟨_, rfl⟩
        | exact Or.inr (Or.inl rfl)
        | exact Or.inr (Or.inr rfl)
    | none =>
      have h3 : isPref ("bip43").data (toLower s).data = false := by
        by_contra hc
        have hsplit : ("bip43").data = ("bip").data ++ ("43").data := by decide
        have hsome : (stripPref (("bip").data ++ ("43").data) (toLower s).data).isSome = true := by
          rw [← hsplit]
          exact Bool.of_not_eq_false hc
        have := stripPref_isSome_of_append hsome
        rw [h1] at this
        exact Bool.noConfusion this
      simp only [Bip43.from_str, h1, h2, h3, Bool.false_eq_true, if_false]
      first
        | exact Or.inr (Or.inl rfl)
        | exact Or.inr (Or.inl trivial)


/-- C1: parsing a `bip43/<payload>` string. The claim says `bip43/7h` yields
the generic variant with purpose 7, an unparsable payload yields
`InvalidPurposeIndex`, and a bare `bip43` yields `InvalidBip43Scheme`. In the
source, `strip_prefix("bip")` consumes the `bip` of `bip43...`, so the
`None`-pattern arm guarded by `s.starts_with("bip43")` is unreachable: both
inputs fail with `UnrecognizedBipScheme`, and no input at all can produce
`InvalidBip43Scheme` or `InvalidPurposeIndex`. -/
theorem bip43_generic_scheme_branch_unreachable :
    Bip43.from_str ("bip43/7h") = Except.error ParseError.unrecognizedBipScheme ∧
    Bip43.from_str ("bip43") = Except.error ParseError.unrecognizedBipScheme ∧
    ∀ s t, Bip43.from_str s ≠ Except.error ParseError.invalidBip43Scheme ∧
      Bip43.from_str s ≠ Except.error (ParseError.invalidPurposeIndex t) := by
  refine ⟨by decide, by decide, fun s t => ?_⟩
  have h := from_str_never_bip43_errors s
  constructor <;>
    · rcases h with ⟨b, hb⟩ | hb | hb <;> rw [hb] <;> intro hc <;>
        first
          | exact Except.noConfusion hc
          | (injection hc with h2; exact ParseError.noConfusion h2)

theorem bip43_generic_scheme_branch_unreachable_witness :
    Bip43.from_str ("bipz") ≠ Except.error ParseError.invalidBip43Scheme :=
  (bip43_generic_scheme_branch_unreachable.2.2 ("bipz") ("7h")).1

/-- C2: path construction. The origin path is `[hardened purpose, blockchain
segment]` as claimed, but `to_account_derivation` discards the result of
`DerivationPath::extend` (which borrows `&self` and returns a new path), so
the account path equals the origin path: the account index and the BIP-48
script-type discriminator never make it into the result, and the key path is
the origin path extended with only the address index and optional case. -/
theorem to_account_derivation_discards_extension :
    (∀ (b : Bip43) (blockchain : DerivationBlockchain), ∃ p,
        b.purpose = some p ∧
        b.to_origin_derivation blockchain =
          [ChildNumber.hardened p.idx, blockchain.child_number]) ∧
    (∀ (b : Bip43) (account_index : ChildNumber) (blockchain : DerivationBlockchain),
        b.to_account_derivation account_index blockchain = b.to_origin_derivation blockchain) ∧
    Bip43.bip44.to_account_derivation (ChildNumber.hardened 7) DerivationBlockchain.bitcoin =
      [ChildNumber.hardened 44, ChildNumber.hardened 0] ∧
    Bip43.bip48Native.to_account_derivation (ChildNumber.hardened 7) DerivationBlockchain.testnet =
      [ChildNumber.hardened 48, ChildNumber.hardened 1] ∧
    Bip43.bip44.to_key_derivation (ChildNumber.hardened 7) DerivationBlockchain.bitcoin ⟨5⟩
        (some ⟨1⟩) =
      [ChildNumber.hardened 44, ChildNumber.hardened 0, ChildNumber.normal 5,
        ChildNumber.normal 1] := by
  refine ⟨fun b blockchain => ?_, fun b a blockchain => rfl, by decide, by decide, by decide⟩
  cases b <;> exact ⟨_, rfl, rfl⟩

/-- C3: `Bip43::with` on BIP-48 paths. The claim says the fourth segment
(index 3) is inspected. In the source `iter.next()` consumes the first
segment and `iter.nth(3)` then yields the element at index 4, so
`[48h, 2h, 0h, 1h]` and `[48h, 2h, 0h, 3h]` both reconstruct to nothing,
while five-segment paths are classified by their fifth segment, with the
fourth segment ignored entirely. -/
theorem with_inspects_fifth_segment :
    Bip43.withPath
        [ChildNumber.hardened 48, ChildNumber.hardened 2, ChildNumber.hardened 0,
          ChildNumber.hardened 1] = none ∧
    Bip43.withPath
        [ChildNumber.hardened 48, ChildNumber.hardened 2, ChildNumber.hardened 0,
          ChildNumber.hardened 3] = none ∧
    Bip43.withPath
        [ChildNumber.hardened 48, ChildNumber.hardened 2, ChildNumber.hardened 0,
          ChildNumber.hardened 0, ChildNumber.hardened 1] = some Bip43.bip48Nested ∧
    Bip43.withPath
        [ChildNumber.hardened 48, ChildNumber.hardened 2, ChildNumber.hardened 0,
          ChildNumber.hardened 0, ChildNumber.hardened 2] = some Bip43.bip48Native ∧
    Bip43.withPath
        [ChildNumber.hardened 48, ChildNumber.hardened 0, ChildNumber.hardened 0,
          ChildNumber.hardened 5, ChildNumber.hardened 1] = some Bip43.bip48Nested := by
  decide

/-- C4 counterexample: the alternate display form `m/44h` does not parse; the
residual after stripping `m/` is `44h`, which matches no arm, so parsing
fails with `UnrecognizedBipScheme` instead of yielding `Bip44`. -/
theorem alt_display_form_does_not_parse :
    Bip43.from_str ("m/44h") = Except.error ParseError.unrecognizedBipScheme ∧
    Bip43.from_str ("m/44h") ≠ Except.ok Bip43.bip44 := by
  decide

/-- C4 amended: parsing is case-insensitive and strips a leading `bip` or
`m/` token, so `bip44`, `BIP44`, `Bip44` and `m/44` all parse to `Bip44`;
the alternate display form `m/44h` fails with `UnrecognizedBipScheme`. -/
theorem bip43_parse_token_stripping :
    Bip43.from_str ("bip44") = Except.ok Bip43.bip44 ∧
    Bip43.from_str ("BIP44") = Except.ok Bip43.bip44 ∧
    Bip43.from_str ("Bip44") = Except.ok Bip43.bip44 ∧
    Bip43.from_str ("m/44") = Except.ok Bip43.bip44 ∧
    Bip43.from_str ("m/44h") = Except.error ParseError.unrecognizedBipScheme := by
  decide

/-- C5 counterexample: `m/48//1` has residual `48//1` after stripping `m/`,
and its payload `1` parses as a hardened index with value 1, yet parsing
fails with `InvalidBip48Scheme` instead of yielding `Bip48Nested`, because
the source strips the literal `bip48//` from the whole string. -/
theorem m_prefixed_bip48_scheme_rejected :
    Bip43.from_str ("m/48//1") = Except.error ParseError.invalidBip48Scheme ∧
    Bip43.from_str ("m/48//1") ≠ Except.ok Bip43.bip48Nested := by
  decide

/-- C5 amended: for inputs of the shape `bip48//<payload>` the (lowercased)
payload is parsed as a hardened index: value 1 yields `Bip48Nested`, value 2
yields `Bip48Native`, and any other or unparsable payload fails with
`InvalidBip48Scheme`; an input of the shape `m/48//<payload>`, whose residual
also begins with `48//`, always fails with `InvalidBip48Scheme` because the
payload is recovered by stripping the literal `bip48//` from the whole
string. -/
theorem bip48_scheme_parse_characterization :
    (∀ p : String,
        Bip43.from_str (("bip48//") ++ p) =
          match hardenedIndexFromStr (toLower p) with
          | some script_type =>
            if script_type.idx = 1 then Except.ok Bip43.bip48Nested
            else if script_type.idx = 2 then Except.ok Bip43.bip48Native
            else Except.error ParseError.invalidBip48Scheme
          | none => Except.error ParseError.invalidBip48Scheme) ∧
    (∀ p : String,
        Bip43.from_str (("m/48//") ++ p) = Except.error ParseError.invalidBip48Scheme) := by
  constructor <;> intro p <;> rfl

/-- C6: round-trips. Parsing the canonical rendering of each named `Bip43`
variant yields the variant back, rendering-parsing-rendering is the identity
on those strings, and the rendered forms of the Bitcoin and Testnet
blockchains parse back to themselves. -/
theorem named_variant_round_trip :
    Bip43.from_str (Bip43.display Bip43.bip44) = Except.ok Bip43.bip44 ∧
    Bip43.from_str (Bip43.display Bip43.bip84) = Except.ok Bip43.bip84 ∧
    Bip43.from_str (Bip43.display Bip43.bip49) = Except.ok Bip43.bip49 ∧
    Bip43.from_str (Bip43.display Bip43.bip86) = Except.ok Bip43.bip86 ∧
    Bip43.from_str (Bip43.display Bip43.bip45) = Except.ok Bip43.bip45 ∧
    Bip43.from_str (Bip43.display Bip43.bip48Nested) = Except.ok Bip43.bip48Nested ∧
    Bip43.from_str (Bip43.display Bip43.bip48Native) = Except.ok Bip43.bip48Native ∧
    Bip43.from_str (Bip43.display Bip43.bip87) = Except.ok Bip43.bip87 ∧
    Except.map Bip43.display (Bip43.from_str (Bip43.display Bip43.bip44)) =
      Except.ok (Bip43.display Bip43.bip44) ∧
    Except.map Bip43.display (Bip43.from_str (Bip43.display Bip43.bip84)) =
      Except.ok (Bip43.display Bip43.bip84) ∧
    Except.map Bip43.display (Bip43.from_str (Bip43.display Bip43.bip49)) =
      Except.ok (Bip43.display Bip43.bip49) ∧
    Except.map Bip43.display (Bip43.from_str (Bip43.display Bip43.bip86)) =
      Except.ok (Bip43.display Bip43.bip86) ∧
    Except.map Bip43.display (Bip43.from_str (Bip43.display Bip43.bip45)) =
      Except.ok (Bip43.display Bip43.bip45) ∧
    Except.map Bip43.display (Bip43.from_str (Bip43.display Bip43.bip48Nested)) =
      Except.ok (Bip43.display Bip43.bip48Nested) ∧
    Except.map Bip43.display (Bip43.from_str (Bip43.display Bip43.bip48Native)) =
      Except.ok (Bip43.display Bip43.bip48Native) ∧
    Except.map Bip43.display (Bip43.from_str (Bip43.display Bip43.bip87)) =
      Except.ok (Bip43.display Bip43.bip87) ∧
    DerivationBlockchain.from_str (DerivationBlockchain.display DerivationBlockchain.bitcoin) =
      Except.ok DerivationBlockchain.bitcoin ∧
    DerivationBlockchain.from_str (DerivationBlockchain.display DerivationBlockchain.testnet) =
      Except.ok DerivationBlockchain.testnet := by
  decide

/-- C7: `Bip43::with` first-segment dispatch. An empty path or a path whose
first segment is not hardened reconstructs to nothing; hardened 44, 84, 49,
86, 45 and 87 yield the corresponding named variant regardless of the rest;
any other hardened value except 48 yields the generic variant carrying it. -/
theorem with_first_segment_dispatch :
    Bip43.withPath [] = none ∧
    (∀ i rest, Bip43.withPath (ChildNumber.normal i :: rest) = none) ∧
    (∀ rest, Bip43.withPath (ChildNumber.hardened 44 :: rest) = some Bip43.bip44) ∧
    (∀ rest, Bip43.withPath (ChildNumber.hardened 84 :: rest) = some Bip43.bip84) ∧
    (∀ rest, Bip43.withPath (ChildNumber.hardened 49 :: rest) = some Bip43.bip49) ∧
    (∀ rest, Bip43.withPath (ChildNumber.hardened 86 :: rest) = some Bip43.bip86) ∧
    (∀ rest, Bip43.withPath (ChildNumber.hardened 45 :: rest) = some Bip43.bip45) ∧
    (∀ rest, Bip43.withPath (ChildNumber.hardened 87 :: rest) = some Bip43.bip87) ∧
    (∀ v rest, v ≠ 44 → v ≠ 84 → v ≠ 49 → v ≠ 86 → v ≠ 45 → v ≠ 87 → v ≠ 48 →
        Bip43.withPath (ChildNumber.hardened v :: rest) = some (Bip43.bip43 ⟨v⟩)) := by
  refine ⟨rfl, fun i rest => rfl, fun rest => rfl, fun rest => rfl, fun rest => rfl,
    fun rest => rfl, fun rest => rfl, fun rest => rfl, ?_⟩
  intro v rest h44 h84 h49 h86 h45 h87 h48
  simp [Bip43.withPath, HardenedIndex.try_from, h44, h84, h49, h86, h45, h87, h48]

theorem with_first_segment_dispatch_witness :
    Bip43.withPath [ChildNumber.hardened 50] = some (Bip43.bip43 ⟨50⟩) :=
  with_first_segment_dispatch.2.2.2.2.2.2.2.2 50 [] (by decide) (by decide) (by decide)
    (by decide) (by decide) (by decide) (by decide)

/-- C8: the descriptor-type compatibility table. The generic variant is
compatible with nothing, and a pair is compatible exactly when it appears in
the fixed ten-row table. -/
theorem descriptor_type_compatibility_table :
    (∀ (p : HardenedIndex) (dt : DescriptorType),
        Bip43.check_descriptor_type (Bip43.bip43 p) dt = false) ∧
    (∀ (b : Bip43) (dt : DescriptorType),
        Bip43.check_descriptor_type b dt = true ↔
          (b = Bip43.bip44 ∧ dt = DescriptorType.pkh) ∨
          (b = Bip43.bip84 ∧ dt = DescriptorType.wpkh) ∨
          (b = Bip43.bip49 ∧ dt = DescriptorType.shWpkh) ∨
          (b = Bip43.bip86 ∧ dt = DescriptorType.tr) ∨
          (b = Bip43.bip45 ∧ dt = DescriptorType.shSortedMulti) ∨
          (b = Bip43.bip87 ∧ dt = DescriptorType.shSortedMulti) ∨
          (b = Bip43.bip87 ∧ dt = DescriptorType.shWshSortedMulti) ∨
          (b = Bip43.bip87 ∧ dt = DescriptorType.wshSortedMulti) ∨
          (b = Bip43.bip48Nested ∧ dt = DescriptorType.shWshSortedMulti) ∨
          (b = Bip43.bip48Native ∧ dt = DescriptorType.wshSortedMulti)) := by
  constructor
  · intro p dt
    cases dt <;> rfl
  · intro b dt
    cases b <;> cases dt <;> first | decide | simp [Bip43.check_descriptor_type]

/-- C9 counterexample: for the input `X`, which is neither `bitcoin` nor
`testnet` nor a parseable child number, parsing fails with
`InvalidBlockchainName` carrying the lowercased string `x`, not the input
string `X` itself. -/
theorem invalid_blockchain_name_lowercased :
    DerivationBlockchain.from_str ("X") =
      Except.error (ParseError.invalidBlockchainName ("x")) ∧
    DerivationBlockchain.from_str ("X") ≠
      Except.error (ParseError.invalidBlockchainName ("X")) := by
  decide

/-- C9 amended: `DerivationBlockchain` parsing returns Bitcoin or Testnet on
a case-insensitive name match; otherwise a hardened child-number parse of the
input wraps as Custom, a normal parse fails with
`UnhardenedBlockchainIndex` carrying the index, and a failed parse fails with
`InvalidBlockchainName` carrying the lowercased input string. -/
theorem derivation_blockchain_parse_characterization :
    ∀ s : String,
      (toLower s = "bitcoin" →
        DerivationBlockchain.from_str s = Except.ok DerivationBlockchain.bitcoin) ∧
      (toLower s = "testnet" →
        DerivationBlockchain.from_str s = Except.ok DerivationBlockchain.testnet) ∧
      (toLower s ≠ "bitcoin" → toLower s ≠ "testnet" →
        (∀ i, childNumberFromStr s = some (ChildNumber.hardened i) →
            DerivationBlockchain.from_str s = Except.ok (DerivationBlockchain.custom ⟨i⟩)) ∧
        (∀ i, childNumberFromStr s = some (ChildNumber.normal i) →
            DerivationBlockchain.from_str s =
              Except.error (ParseError.unhardenedBlockchainIndex i)) ∧
        (childNumberFromStr s = none →
            DerivationBlockchain.from_str s =
              Except.error (ParseError.invalidBlockchainName (toLower s)))) := by
  intro s
  refine ⟨fun h => ?_, fun h => ?_,
    fun h1 h2 => ⟨fun i hp => ?_, fun i hp => ?_, fun hp => ?_⟩⟩
  · simp [DerivationBlockchain.from_str, h]
  · simp [DerivationBlockchain.from_str, h]
  · simp [DerivationBlockchain.from_str, h1, h2, hp]
  · simp [DerivationBlockchain.from_str, h1, h2, hp]
  · simp [DerivationBlockchain.from_str, h1, h2, hp]

theorem derivation_blockchain_parse_characterization_witness :
    DerivationBlockchain.from_str ("5h") = Except.ok (DerivationBlockchain.custom ⟨5⟩) :=
  ((derivation_blockchain_parse_characterization ("5h")).2.2 (by decide) (by decide)).1 5
    (by decide)

/-- C10: the BIP-48 variants are never reconstructed from the account or key
paths this library builds for them: `with` applied to those paths always
returns nothing (the built paths never reach the inspected fifth segment). -/
theorem bip48_paths_never_reconstructed :
    (∀ (a : ChildNumber) (blockchain : DerivationBlockchain),
        Bip43.withPath (Bip43.bip48Nested.to_account_derivation a blockchain) = none) ∧
    (∀ (a : ChildNumber) (blockchain : DerivationBlockchain),
        Bip43.withPath (Bip43.bip48Native.to_account_derivation a blockchain) = none) ∧
    (∀ (a : ChildNumber) (blockchain : DerivationBlockchain) (i : UnhardenedIndex)
        (c : Option UnhardenedIndex),
        Bip43.withPath (Bip43.bip48Nested.to_key_derivation a blockchain i c) = none) ∧
    (∀ (a : ChildNumber) (blockchain : DerivationBlockchain) (i : UnhardenedIndex)
        (c : Option UnhardenedIndex),
        Bip43.withPath (Bip43.bip48Native.to_key_derivation a blockchain i c) = none) := by
  refine ⟨fun a bl => rfl, fun a bl => rfl, fun a bl i c => ?_, fun a bl i c => ?_⟩ <;>
    cases c <;> rfl

end DescriptorWallet
